import Mathlib

/-!
Verification of the movie_recommender back end (similarity-search and
preference-aggregation engine).

Shallow embedding conventions:
* Python / numpy floating-point values are modelled by exact rationals;
  the precision (dtype) questions of the spec are modelled separately by
  the small `DType` calculus near the end of the definitions.
* IMDb identifiers are modelled by their numeric value.  The source
  formats them as the string "tt" followed by the zero-padded digits;
  that formatting is injective on numbers, and it is applied uniformly
  both when building `imdb_id_to_idx` and when producing or comparing
  result identifiers, so identifying a formatted id with its number is
  faithful for every property stated here.
* Python dicts are insertion-ordered association lists; assigning to an
  existing key keeps its position, a new key is appended.
* The FAISS flat L2 index is embedded by its documented exact semantics:
  `search(q, k)` returns the `k` best (row, distance) pairs ascending by
  squared L2 distance, and when the index holds fewer than `k` vectors
  the remaining slots are filled with the sentinel row index `-1`.
* The external detail-enrichment collaborator (OMDb with the local CSV
  fallback `get_local_movie_details`) is modelled as always succeeding
  for a catalog id and returning a record identified with that id, since
  the local fallback finds every id that the index can produce.
-/

namespace MovieRec

/-- Numeric vectors: exact rationals stand in for the floating-point
values of the Python code. -/
abbrev Vec := List ℚ

/-- Elementwise vector addition (numpy + on equal-length 1-D arrays). -/
def vadd (a b : Vec) : Vec := List.zipWith (fun x y => x + y) a b

/-- Elementwise vector subtraction. -/
def vsub (a b : Vec) : Vec := List.zipWith (fun x y => x - y) a b

/-- The all-zero vector of length n (np.zeros / np.zeros_like). -/
def vzero (n : Nat) : Vec := List.replicate n 0

/-- Division of a vector by an integer count (vector / total). -/
def vdivN (v : Vec) (m : Nat) : Vec := v.map (fun x => x / (m : ℚ))

/-- Elementwise sum of a list of vectors with explicit base dimension. -/
def sumVecs (n : Nat) (l : List Vec) : Vec := l.foldr vadd (vzero n)

/-- Semantics of np.sum(l, axis=0) on a non-empty list of arrays:
elementwise accumulation starting from the first array. -/
def npSum : List Vec → Vec
  | [] => []
  | v :: vs => vs.foldl vadd v

/-- Lookup in an insertion-ordered association list (a Python dict). -/
def dictLookup {α : Type} (l : List (Nat × α)) (k : Nat) : Option α :=
  (l.find? (fun p => p.1 == k)).map (fun p => p.2)

/-- Lookup with default, used on dicts known to contain the key. -/
def dictLookupD (l : List (Nat × Vec)) (k : Nat) : Vec := (dictLookup l k).getD []

/-- Python dict assignment d[k] = v: an existing key keeps its position
and gets the new value, a new key is appended at the end. -/
def dictUpsert {α : Type} (l : List (Nat × α)) (k : Nat) (v : α) : List (Nat × α) :=
  if l.any (fun p => p.1 == k) then l.map (fun p => if p.1 == k then (k, v) else p)
  else l ++ [(k, v)]

/-- Errors produced by the genre-mode preference code paths in
user_preferences.py: the ValueError for an empty preference set, the
ValueError for an IMDb id absent from movies_df, and the Python KeyError
raised by an access to a missing genre_vectors key. -/
inductive PrefError
  | emptyPreferences
  | unknownItem
  | keyError
  deriving DecidableEq

/-- Genre-mode catalog: the rows of movies_df, each carrying its imdbId
and its multi-hot genre-flag vector (the genre_columns values). -/
abbrev Catalog := List (Nat × Vec)

/-- UserPreferences._get_genre_vector: select the movies_df rows whose
imdbId matches, raise if none match, and flatten the genre-column values
of all matching rows into one vector. -/
def getGenreVector (cat : Catalog) (imdbId : Nat) : Except PrefError Vec :=
  let rows := cat.filter (fun p => p.1 == imdbId)
  if rows.isEmpty then .error .unknownItem
  else .ok (rows.map (fun p => p.2)).flatten

/-- The mutable state of a UserPreferences object: the preferences dict
(imdb id to rating) and the genre_vectors cache (imdb id to vector). -/
structure UPrefs where
  preferences : List (Nat × ℚ)
  genreVectors : List (Nat × Vec)
  deriving DecidableEq

/-- UserPreferences.add_preference: the rating is stored first; only
then is the genre vector computed and cached, so when the lookup raises
the preferences dict has already been mutated. -/
def addPreference (cat : Catalog) (st : UPrefs) (imdbId : Nat) (rating : ℚ) :
    UPrefs × Except PrefError Unit :=
  let st1 : UPrefs := ⟨dictUpsert st.preferences imdbId rating, st.genreVectors⟩
  match getGenreVector cat imdbId with
  | .error e => (st1, .error e)
  | .ok v => (⟨st1.preferences, dictUpsert st.genreVectors imdbId v⟩, .ok ())

/-- The accumulation loop of compute_query_vector: for each stored
preference, fetch the cached vector (KeyError if missing), add it when
the rating is positive and subtract it otherwise. -/
def accumPrefs (gv : List (Nat × Vec)) (acc : Vec) : List (Nat × ℚ) → Except PrefError Vec
  | [] => .ok acc
  | (key, r) :: rest =>
    match dictLookup gv key with
    | none => .error .keyError
    | some v => accumPrefs gv (if 0 < r then vadd acc v else vsub acc v) rest

/-- UserPreferences.compute_query_vector: error on an empty preference
dict, otherwise accumulate signed genre vectors starting from np.zeros
and divide by the total preference count (guarded by the source's
check that the count is positive). -/
def computeQueryVector (ncols : Nat) (st : UPrefs) : Except PrefError Vec :=
  if st.preferences.isEmpty then .error .emptyPreferences
  else
    match accumPrefs st.genreVectors (vzero ncols) st.preferences with
    | .error e => .error e
    | .ok v =>
      if 0 < st.preferences.length then .ok (vdivN v st.preferences.length) else .ok v

/-- Cached vectors of the preferences the genre-mode code adds (rating
strictly positive). -/
def likedVecs (st : UPrefs) : List Vec :=
  (st.preferences.filter (fun p => decide (0 < p.2))).map (fun p => dictLookupD st.genreVectors p.1)

/-- Cached vectors of the preferences the genre-mode code subtracts. -/
def dislikedVecs (st : UPrefs) : List Vec :=
  (st.preferences.filter (fun p => decide (p.2 ≤ 0))).map (fun p => dictLookupD st.genreVectors p.1)

/-- Spec-side formulation of the genre-mode aggregation, written from
the spec's words: the sum of the liked vectors minus the sum of the
disliked vectors, divided by the total preference count. -/
def specQueryVector (ncols : Nat) (st : UPrefs) : Vec :=
  vdivN (vsub (sumVecs ncols (likedVecs st)) (sumVecs ncols (dislikedVecs st)))
    st.preferences.length

/-- The embedding-mode recommender state built by load_data/build_index:
the imdb_id column of movies_df, the embedding matrix (one row per
movie, aligned with ids), and the configured neighbourhood size k. -/
structure Recommender where
  ids : List Nat
  embs : List Vec
  k : Nat
  deriving DecidableEq

/-- The imdb_id_to_idx dict built by load_data: rows are enumerated in
order and each id is assigned its row, so a duplicated id keeps the last
row that carries it. -/
def idToIdx (ids : List Nat) (imdbId : Nat) : Option Nat :=
  (List.range ids.length).foldl (fun acc i => if ids.getD i 0 == imdbId then some i else acc) none

/-- The embedding row a resolvable id maps to (meaningful only when
idToIdx succeeds). -/
def vecOfId (r : Recommender) (imdbId : Nat) : Vec :=
  r.embs.getD ((idToIdx r.ids imdbId).getD 0) []

/-- The collection loops of compute_weighted_embedding_from_preferences:
ids absent from imdb_id_to_idx are skipped, resolvable ids contribute
their embedding row. -/
def collectEmbs (r : Recommender) (prefIds : List Nat) : List Vec :=
  prefIds.filterMap (fun imdbId => (idToIdx r.ids imdbId).map (fun i => r.embs.getD i []))

/-- KNNMovieRecommender.compute_weighted_embedding_from_preferences:
collect resolvable liked and disliked embeddings, return None when none
resolve, otherwise start from np.zeros_like(embeddings[0]), add the sum
of liked embeddings (when non-empty), subtract the sum of disliked
embeddings (when non-empty), and divide by the resolved total. -/
def computeWeightedEmbedding (r : Recommender) (liked disliked : List Nat) : Option Vec :=
  let le := collectEmbs r liked
  let de := collectEmbs r disliked
  let total := le.length + de.length
  if total = 0 then none
  else
    let ws0 := vzero (r.embs.getD 0 []).length
    let ws1 := if le.isEmpty then ws0 else vadd ws0 (npSum le)
    let ws2 := if de.isEmpty then ws1 else vsub ws1 (npSum de)
    some (vdivN ws2 total)

/-- Spec-side formulation of the embedding-mode aggregation, written
from the spec's words: sum of liked vectors minus sum of disliked
vectors, divided by the total number of preferences. -/
def specWeightedEmbedding (r : Recommender) (liked disliked : List Nat) : Vec :=
  vdivN (vsub (sumVecs (r.embs.getD 0 []).length (liked.map (vecOfId r)))
              (sumVecs (r.embs.getD 0 []).length (disliked.map (vecOfId r))))
    (liked.length + disliked.length)

/-- Squared L2 distance used by the FAISS flat index. -/
def sqDist (q v : Vec) : ℚ := (List.zipWith (fun a b => (a - b) * (a - b)) q v).sum

/-- Ordering of (row, distance) pairs: ascending distance, ties broken
by ascending row index (a fixed deterministic tie-break). -/
def distLE (a b : Nat × ℚ) : Prop := a.2 < b.2 ∨ (a.2 = b.2 ∧ a.1 ≤ b.1)

instance : DecidableRel distLE := fun a b =>
  inferInstanceAs (Decidable (a.2 < b.2 ∨ (a.2 = b.2 ∧ a.1 ≤ b.1)))

instance : IsTotal (Nat × ℚ) distLE where
  total a b := by
    rcases lt_trichotomy a.2 b.2 with h | h | h
    · exact Or.inl (Or.inl h)
    · rcases Nat.le_total a.1 b.1 with hn | hn
      · exact Or.inl (Or.inr ⟨h, hn⟩)
      · exact Or.inr (Or.inr ⟨h.symm, hn⟩)
    · exact Or.inr (Or.inl h)

instance : IsTrans (Nat × ℚ) distLE where
  trans a b c hab hbc := by
    rcases hab with hab | ⟨hab, hab2⟩
    · rcases hbc with hbc | ⟨hbc, _⟩
      · exact Or.inl (hab.trans hbc)
      · exact Or.inl (hbc ▸ hab)
    · rcases hbc with hbc | ⟨hbc, hbc2⟩
      · exact Or.inl (hab ▸ hbc)
      · exact Or.inr ⟨hab.trans hbc, hab2.trans hbc2⟩

/-- Exact brute-force ranking of all rows against a query: every row is
paired with its squared distance and the pairs are sorted ascending. -/
def rankRows (embs : List Vec) (q : Vec) : List (Nat × ℚ) :=
  List.insertionSort distLE ((List.range embs.length).map (fun i => (i, sqDist q (embs.getD i []))))

/-- The row indices returned by faiss IndexFlatL2.search(q, k): the k
best rows in ascending-distance order, padded with the sentinel -1 when
the index holds fewer than k vectors. -/
def searchIndices (embs : List Vec) (q : Vec) (k : Nat) : List Int :=
  ((rankRows embs q).take k).map (fun p => (p.1 : Int)) ++ List.replicate (k - embs.length) (-1)

/-- movies_df.iloc row lookup applied to a search index: pandas accepts
Python negative positions, so -1 resolves to the last row. -/
def ilocId (ids : List Nat) (i : Int) : Option Nat :=
  let j : Int := if i < 0 then (ids.length : Int) + i else i
  if 0 ≤ j then ids[j.toNat]? else none

/-- The id-production loop of get_similar_movies: each returned index is
resolved through iloc; an unresolvable index is a raised IndexError,
modelled as none. -/
def lookupIds (ids : List Nat) : List Int → Option (List Nat)
  | [] => some []
  | i :: rest =>
    match ilocId ids i with
    | none => none
    | some m =>
      match lookupIds ids rest with
      | none => none
      | some ms => some (m :: ms)

/-- KNNMovieRecommender.get_similar_movies with an explicit k: search
the index and map every returned row index to its imdb id. -/
def getSimilarMovies (r : Recommender) (q : Vec) (k : Nat) : Option (List Nat) :=
  lookupIds r.ids (searchIndices r.embs q k)

/-- KNNMovieRecommender.recommend_movies_with_details: search with the
recommender's configured k, then walk the ids collecting enriched
records until limit are gathered.  Enrichment is modelled as always
succeeding (see the module docstring), so this is a take. -/
def recommendWithDetails (r : Recommender) (q : Vec) (limit : Nat) : Option (List Nat) :=
  (getSimilarMovies r q r.k).map (fun l => l.take limit)

/-- HTTP-level error outcomes of the main.py route handlers. -/
inductive ApiError
  | serviceUnavailable
  | notReady
  | badRequest
  | notFound
  | noneFound
  | internalError
  deriving DecidableEq

/-- main.get_similar_to_movie: 404 when the id is not in the database;
otherwise recommend from the movie's own embedding with limit + 1,
filter the source movie out, truncate to limit, and 404 when the final
list is empty. -/
def getSimilarToMovie (r : Recommender) (imdbId : Nat) (limit : Nat) : Except ApiError (List Nat) :=
  match idToIdx r.ids imdbId with
  | none => .error .notFound
  | some idx =>
    match recommendWithDetails r (r.embs.getD idx []) (limit + 1) with
    | none => .error .internalError
    | some recs0 =>
      let recs1 := recs0.filter (fun m => m != imdbId)
      let recs2 := recs1.take limit
      if recs2.isEmpty then .error .noneFound else .ok recs2

/-- The update loop of get_recommendations_from_user_preferences: every
request preference is upserted into the stored user_ratings dict. -/
def mergeRatings (stored reqPrefs : List (Nat × ℚ)) : List (Nat × ℚ) :=
  reqPrefs.foldl (fun acc p => dictUpsert acc p.1 p.2) stored

/-- The like classification of main.py line 384: rating at least 0.5. -/
def likedIdsOf (ratings : List (Nat × ℚ)) : List Nat :=
  (ratings.filter (fun p => decide ((1 : ℚ)/2 ≤ p.2))).map (fun p => p.1)

/-- The dislike classification of main.py line 385: rating below 0.5. -/
def dislikedIdsOf (ratings : List (Nat × ℚ)) : List Nat :=
  (ratings.filter (fun p => decide (p.2 < (1 : ℚ)/2))).map (fun p => p.1)

/-- main.get_recommendations_from_user_preferences: 400 on an empty
request, merge the request into the stored ratings, split into likes
and dislikes at 0.5, compute the weighted embedding (400 when None),
recommend with limit plus the number of stored ratings, filter out all
rated ids, truncate to limit, and 404 when the final list is empty. -/
def getRecommendationsFromUserPreferences (r : Recommender) (stored reqPrefs : List (Nat × ℚ))
    (limit : Nat) : Except ApiError (List Nat) :=
  if reqPrefs.isEmpty then .error .badRequest
  else
    let ratings := mergeRatings stored reqPrefs
    match computeWeightedEmbedding r (likedIdsOf ratings) (dislikedIdsOf ratings) with
    | none => .error .badRequest
    | some q =>
      match recommendWithDetails r q (limit + ratings.length) with
      | none => .error .internalError
      | some recs0 =>
        let rated := ratings.map (fun p => p.1)
        let recs1 := recs0.filter (fun m => decide (m ∉ rated))
        let recs2 := recs1.take limit
        if recs2.isEmpty then .error .noneFound else .ok recs2

/-- The module-level state read by get_initial_recommendations: whether
the recommender global is set, and the cached_initial_recommendations
global (None until precomputation finishes). -/
structure AppState where
  recommenderReady : Bool
  cachedInitial : Option (List Nat)
  deriving DecidableEq

/-- main.get_initial_recommendations: 503 when the recommender is not
available, a distinct 503 when the cache is not yet computed, otherwise
the cached list truncated to limit, with 404 when the truncation is
empty.  The handler reads but never writes this state, so the result is
a pure function of (state, limit): repeated calls on an unchanged state
return identical output. -/
def getInitialRecommendations (st : AppState) (limit : Nat) : Except ApiError (List Nat) :=
  if st.recommenderReady = false then .error .serviceUnavailable
  else
    match st.cachedInitial with
    | none => .error .notReady
    | some cached =>
      let recs := cached.take limit
      if recs.isEmpty then .error .noneFound else .ok recs

/-- Numpy dtypes that occur in this code base. -/
inductive DType
  | f32
  | f64
  deriving DecidableEq

/-- Numpy type promotion between two float arrays. -/
def promote : DType → DType → DType
  | .f64, _ => .f64
  | _, .f64 => .f64
  | .f32, .f32 => .f32

/-- astype(float): the Python float type is the 64-bit double. -/
def astypePyFloat (_d : DType) : DType := .f64

/-- astype(np.float32). -/
def astypeF32 (_d : DType) : DType := .f32

/-- np.zeros with no dtype argument defaults to float64. -/
def npZerosDefault : DType := .f64

/-- np.zeros_like keeps the dtype of its argument. -/
def zerosLike (d : DType) : DType := d

/-- np.sum over a list of arrays of one dtype keeps that dtype. -/
def sumDType (d : DType) : DType := d

/-- Dividing a float array by a Python int scalar keeps the array
dtype (the scalar is weak in numpy promotion). -/
def divByIntScalar (d : DType) : DType := d

/-- Dtype of the vector returned by _get_genre_vector (line 58 of
user_preferences.py applies astype(float) to the row values). -/
def genreVectorDType : DType := astypePyFloat .f64

/-- Dtype of the genre-mode query vector: np.zeros accumulator combined
with the looked-up vectors, then divided by the preference count. -/
def genreQueryDType : DType := divByIntScalar (promote npZerosDefault genreVectorDType)

/-- Dtype of the stored embedding matrix (load_data line 43 applies
astype(np.float32)). -/
def storedEmbeddingDType : DType := astypeF32 .f64

/-- Dtype of the embedding-mode weighted query vector: zeros_like the
first embedding row, signed sums of embedding rows, division by the
resolved count, and a final astype(np.float32). -/
def weightedEmbeddingDType : DType :=
  astypeF32 (divByIntScalar (promote (zerosLike storedEmbeddingDType) (sumDType storedEmbeddingDType)))

instance exceptDecEq {ε α : Type} [DecidableEq ε] [DecidableEq α] :
    DecidableEq (Except ε α) := fun x y =>
  match x, y with
  | .ok a, .ok b =>
    if h : a = b then isTrue (congrArg Except.ok h)
    else isFalse (by intro hc; injection hc with h2; exact h h2)
  | .error e, .error f =>
    if h : e = f then isTrue (congrArg Except.error h)
    else isFalse (by intro hc; injection hc with h2; exact h h2)
  | .ok _, .error _ => isFalse (fun hc => Except.noConfusion hc)
  | .error _, .ok _ => isFalse (fun hc => Except.noConfusion hc)

theorem length_vadd (a b : Vec) : (vadd a b).length = min a.length b.length := by
  simp [vadd]

theorem length_vsub (a b : Vec) : (vsub a b).length = min a.length b.length := by
  simp [vsub]

theorem vadd_assoc (a b c : Vec) : vadd (vadd a b) c = vadd a (vadd b c) := by
  induction a generalizing b c with
  | nil => simp [vadd]
  | cons x xs ih =>
    cases b with
    | nil => simp [vadd]
    | cons y ys =>
      cases c with
      | nil => simp [vadd]
      | cons z zs =>
        simp only [vadd, List.zipWith_cons_cons, List.cons.injEq]
        exact ⟨add_assoc x y z, ih ys zs⟩

theorem vadd_vzero_right (v : Vec) {n : Nat} (h : v.length = n) : vadd v (vzero n) = v := by
  subst h
  induction v with
  | nil => rfl
  | cons x xs ih =>
    simp only [List.length_cons, vzero, List.replicate_succ] at *
    simp only [vadd, List.zipWith_cons_cons, List.cons.injEq]
    exact ⟨add_zero x, ih⟩

theorem vzero_vadd_left (v : Vec) {n : Nat} (h : v.length = n) : vadd (vzero n) v = v := by
  subst h
  induction v with
  | nil => rfl
  | cons x xs ih =>
    simp only [List.length_cons, vzero, List.replicate_succ] at *
    simp only [vadd, List.zipWith_cons_cons, List.cons.injEq]
    exact ⟨zero_add x, ih⟩

theorem vsub_vzero_right (v : Vec) {n : Nat} (h : v.length = n) : vsub v (vzero n) = v := by
  subst h
  induction v with
  | nil => rfl
  | cons x xs ih =>
    simp only [List.length_cons, vzero, List.replicate_succ] at *
    simp only [vsub, List.zipWith_cons_cons, List.cons.injEq]
    exact ⟨sub_zero x, ih⟩

theorem vsub_vadd_swap (a v sl sd : Vec) :
    vsub (vadd (vsub a v) sl) sd = vsub (vadd a sl) (vadd v sd) := by
  induction a generalizing v sl sd with
  | nil => simp [vadd, vsub]
  | cons x xs ih =>
    cases v with
    | nil => simp [vadd, vsub]
    | cons y ys =>
      cases sl with
      | nil => simp [vadd, vsub]
      | cons z zs =>
        cases sd with
        | nil => simp [vadd, vsub]
        | cons w ws =>
          simp only [vadd, vsub, List.zipWith_cons_cons, List.cons.injEq]
          exact ⟨by ring, ih ys zs ws⟩

theorem sumVecs_cons (n : Nat) (v : Vec) (vs : List Vec) :
    sumVecs n (v :: vs) = vadd v (sumVecs n vs) := rfl

theorem length_sumVecs (n : Nat) (l : List Vec) (h : ∀ v ∈ l, v.length = n) :
    (sumVecs n l).length = n := by
  induction l with
  | nil => simp [sumVecs, vzero]
  | cons v vs ih =>
    rw [sumVecs_cons, length_vadd, h v (List.mem_cons_self v vs),
      ih (fun u hu => h u (List.mem_cons_of_mem _ hu))]
    exact Nat.min_self n

theorem foldl_vadd_eq (n : Nat) :
    ∀ (vs : List Vec) (v : Vec), v.length = n → (∀ u ∈ vs, u.length = n) →
    vs.foldl vadd v = vadd v (sumVecs n vs)
  | [], v, hv, _ => by simp [sumVecs, vadd_vzero_right v hv]
  | u :: vs, v, hv, h => by
    simp only [List.foldl_cons]
    have hu : u.length = n := h u (List.mem_cons_self u vs)
    rw [foldl_vadd_eq n vs (vadd v u)
      (by rw [length_vadd, hv, hu]; exact Nat.min_self n)
      (fun w hw => h w (List.mem_cons_of_mem _ hw))]
    rw [sumVecs_cons, ← vadd_assoc]

theorem npSum_eq_sumVecs (n : Nat) (l : List Vec) (hne : l ≠ [])
    (h : ∀ v ∈ l, v.length = n) : npSum l = sumVecs n l := by
  cases l with
  | nil => exact absurd rfl hne
  | cons v vs =>
    simp only [npSum]
    rw [foldl_vadd_eq n vs v (h v (List.mem_cons_self v vs))
      (fun u hu => h u (List.mem_cons_of_mem _ hu)), sumVecs_cons]

theorem vdivN_one (v : Vec) : vdivN v 1 = v := by
  simp [vdivN]

theorem lookup_len_spec {gv : List (Nat × Vec)} {key : Nat} {n : Nat}
    (h : (dictLookup gv key).map List.length = some n) :
    ∃ v, dictLookup gv key = some v ∧ v.length = n := by
  cases hlk : dictLookup gv key with
  | none => rw [hlk] at h; exact absurd h (by simp)
  | some v => rw [hlk] at h; exact ⟨v, rfl, by simpa using h⟩

theorem accumPrefs_eq (gv : List (Nat × Vec)) (n : Nat) :
    ∀ (l : List (Nat × ℚ)) (acc : Vec), acc.length = n →
    (∀ p ∈ l, (dictLookup gv p.1).map List.length = some n) →
    accumPrefs gv acc l =
      .ok (vsub
        (vadd acc (sumVecs n ((l.filter (fun p => decide (0 < p.2))).map
          (fun p => dictLookupD gv p.1))))
        (sumVecs n ((l.filter (fun p => decide (p.2 ≤ 0))).map
          (fun p => dictLookupD gv p.1))))
  | [], acc, hacc, _ => by
    simp [accumPrefs, sumVecs, vadd_vzero_right acc hacc, vsub_vzero_right acc hacc]
  | (key, r) :: rest, acc, hacc, h => by
    obtain ⟨v, hv, hvlen⟩ := lookup_len_spec (h (key, r) (List.mem_cons_self _ _))
    have hdl : dictLookupD gv key = v := by simp [dictLookupD, hv]
    by_cases hr : 0 < r
    · have hnot : ¬ r ≤ 0 := not_le.mpr hr
      simp only [accumPrefs, hv, if_pos hr]
      rw [accumPrefs_eq gv n rest (vadd acc v)
        (by rw [length_vadd, hacc, hvlen]; exact Nat.min_self n)
        (fun p hp => h p (List.mem_cons_of_mem _ hp))]
      rw [List.filter_cons_of_pos (by simpa using hr),
        List.filter_cons_of_neg (by simpa using hnot)]
      simp only [List.map_cons]
      rw [hdl, sumVecs_cons, ← vadd_assoc]
    · have hle : r ≤ 0 := not_lt.mp hr
      simp only [accumPrefs, hv, if_neg hr]
      rw [accumPrefs_eq gv n rest (vsub acc v)
        (by rw [length_vsub, hacc, hvlen]; exact Nat.min_self n)
        (fun p hp => h p (List.mem_cons_of_mem _ hp))]
      rw [List.filter_cons_of_neg (by simpa using hr),
        List.filter_cons_of_pos (by simpa using hle)]
      simp only [List.map_cons]
      rw [hdl, sumVecs_cons]
      exact congrArg Except.ok (vsub_vadd_swap acc v _ _)

theorem computeQueryVector_eq_spec (ncols : Nat) (st : UPrefs)
    (hne : st.preferences ≠ [])
    (h : ∀ p ∈ st.preferences, (dictLookup st.genreVectors p.1).map List.length = some ncols) :
    computeQueryVector ncols st = .ok (specQueryVector ncols st) := by
  have hlen : (vzero ncols).length = ncols := by simp [vzero]
  have hacc := accumPrefs_eq st.genreVectors ncols st.preferences (vzero ncols) hlen h
  have hSl : ∀ u ∈ likedVecs st, u.length = ncols := by
    intro u hu
    simp only [likedVecs, List.mem_map] at hu
    obtain ⟨p, hp, rfl⟩ := hu
    obtain ⟨v, hv, hvlen⟩ := lookup_len_spec (h p (List.mem_of_mem_filter hp))
    simp [dictLookupD, hv, hvlen]
  unfold computeQueryVector
  rw [if_neg (by simpa [List.isEmpty_iff] using hne)]
  rw [hacc]
  have hppos : 0 < st.preferences.length := List.length_pos.mpr hne
  show (if 0 < st.preferences.length then
      Except.ok (vdivN (vsub (vadd (vzero ncols) (sumVecs ncols (likedVecs st)))
        (sumVecs ncols (dislikedVecs st))) st.preferences.length)
    else Except.ok (vsub (vadd (vzero ncols) (sumVecs ncols (likedVecs st)))
      (sumVecs ncols (dislikedVecs st)))) = Except.ok (specQueryVector ncols st)
  rw [if_pos hppos, vzero_vadd_left _ (length_sumVecs ncols _ hSl)]
  rfl

theorem accumPrefs_isOk (gv : List (Nat × Vec)) :
    ∀ (l : List (Nat × ℚ)) (acc : Vec), (∀ p ∈ l, (dictLookup gv p.1).isSome) →
    ∃ v, accumPrefs gv acc l = .ok v
  | [], acc, _ => ⟨acc, rfl⟩
  | (key, r) :: rest, acc, h => by
    obtain ⟨v, hv⟩ := Option.isSome_iff_exists.mp (h (key, r) (List.mem_cons_self _ _))
    simp only [accumPrefs, hv]
    exact accumPrefs_isOk gv rest _ (fun p hp => h p (List.mem_cons_of_mem _ hp))

theorem accumPrefs_append_missing (gv : List (Nat × Vec)) :
    ∀ (l : List (Nat × ℚ)) (acc : Vec) (key : Nat) (r : ℚ),
    (∀ p ∈ l, (dictLookup gv p.1).isSome) → dictLookup gv key = none →
    accumPrefs gv acc (l ++ [(key, r)]) = .error .keyError
  | [], acc, key, r, _, hnone => by simp [accumPrefs, hnone]
  | (k2, r2) :: l, acc, key, r, h, hnone => by
    obtain ⟨v, hv⟩ := Option.isSome_iff_exists.mp (h _ (List.mem_cons_self _ _))
    simp only [List.cons_append, accumPrefs, hv]
    exact accumPrefs_append_missing gv l _ key r
      (fun p hp => h p (List.mem_cons_of_mem _ hp)) hnone

theorem dictLookup_eq_none_iff {α : Type} (l : List (Nat × α)) (k : Nat) :
    dictLookup l k = none ↔ k ∉ l.map Prod.fst := by
  simp only [dictLookup, Option.map_eq_none', List.find?_eq_none, List.mem_map]
  constructor
  · rintro h ⟨p, hp, rfl⟩
    exact absurd (by simp : (p.1 == p.1) = true) (h p hp)
  · intro h p hp
    simp only [beq_iff_eq]
    intro hk
    exact h ⟨p, hp, hk⟩

theorem dictUpsert_not_mem {α : Type} (l : List (Nat × α)) (k : Nat) (v : α)
    (h : k ∉ l.map Prod.fst) : dictUpsert l k v = l ++ [(k, v)] := by
  unfold dictUpsert
  rw [if_neg]
  simp only [List.any_eq_true, beq_iff_eq, not_exists, not_and]
  intro p hp hk
  exact h (List.mem_map.mpr ⟨p, hp, hk⟩)

theorem dictLookup_append_self {α : Type} (l : List (Nat × α)) (k : Nat) (v : α)
    (h : k ∉ l.map Prod.fst) : dictLookup (l ++ [(k, v)]) k = some v := by
  induction l with
  | nil => simp [dictLookup]
  | cons p l ih =>
    have hp : p.1 ≠ k := fun hk => h (List.mem_map.mpr ⟨p, List.mem_cons_self _ _, hk⟩)
    have hml : k ∉ l.map Prod.fst := fun hm => h (by simp [List.map_cons]; right; simpa using hm)
    simp only [List.cons_append, dictLookup, List.find?_cons]
    rw [show (p.1 == k) = false from beq_eq_false_iff_ne.mpr hp]
    exact ih hml

theorem getGenreVector_absent (cat : Catalog) (imdbId : Nat)
    (h : ∀ p ∈ cat, p.1 ≠ imdbId) : getGenreVector cat imdbId = .error .unknownItem := by
  unfold getGenreVector
  have : cat.filter (fun p => p.1 == imdbId) = [] :=
    List.filter_eq_nil_iff.mpr (fun p hp => by simpa using h p hp)
  simp [this]

theorem getD_mem {α : Type} (l : List α) (i : Nat) (d : α) (h : i < l.length) :
    l.getD i d ∈ l := by
  induction l generalizing i with
  | nil => simp at h
  | cons x xs ih =>
    cases i with
    | zero => rw [List.getD_cons_zero]; exact List.mem_cons_self _ _
    | succ j =>
      rw [List.getD_cons_succ]
      exact List.mem_cons_of_mem _ (ih j (by simpa using h))

theorem foldl_pick (f : Nat → Bool) :
    ∀ (l : List Nat) (acc : Option Nat) (i : Nat),
    l.foldl (fun a j => if f j then some j else a) acc = some i → acc = some i ∨ i ∈ l
  | [], _, _, h => Or.inl h
  | j :: l, acc, i, h => by
    rcases foldl_pick f l (if f j then some j else acc) i h with h1 | h1
    · by_cases hj : f j
      · rw [if_pos hj] at h1
        exact Or.inr (by injection h1 with h2; rw [h2]; exact List.mem_cons_self _ _)
      · rw [if_neg hj] at h1
        exact Or.inl h1
    · exact Or.inr (List.mem_cons_of_mem _ h1)

theorem idToIdx_lt {ids : List Nat} {imdbId i : Nat} (h : idToIdx ids imdbId = some i) :
    i < ids.length := by
  unfold idToIdx at h
  rcases foldl_pick (fun j => ids.getD j 0 == imdbId) (List.range ids.length) none i h with
    h1 | h1
  · exact Option.noConfusion h1
  · exact List.mem_range.mp h1

theorem collectEmbs_resolved (r : Recommender) (l : List Nat)
    (h : ∀ id ∈ l, (idToIdx r.ids id).isSome) :
    collectEmbs r l = l.map (vecOfId r) := by
  induction l with
  | nil => rfl
  | cons a l ih =>
    obtain ⟨i, hi⟩ := Option.isSome_iff_exists.mp (h a (List.mem_cons_self a l))
    have hva : vecOfId r a = r.embs.getD i [] := by simp [vecOfId, hi]
    have step : collectEmbs r (a :: l) = r.embs.getD i [] :: collectEmbs r l := by
      simp only [collectEmbs, List.filterMap_cons, hi, Option.map_some']
    rw [step, List.map_cons, hva, ih (fun id hid => h id (List.mem_cons_of_mem _ hid))]

theorem ws_chain (n : Nat) (le de : List Vec)
    (hle : ∀ u ∈ le, u.length = n) (hde : ∀ u ∈ de, u.length = n) :
    (if de.isEmpty then (if le.isEmpty then vzero n else vadd (vzero n) (npSum le))
      else vsub (if le.isEmpty then vzero n else vadd (vzero n) (npSum le)) (npSum de))
    = vsub (sumVecs n le) (sumVecs n de) := by
  have hzl : (vzero n).length = n := by simp [vzero]
  by_cases hLe : le = []
  · subst hLe
    by_cases hDe : de = []
    · subst hDe
      show vzero n = vsub (sumVecs n []) (sumVecs n [])
      rw [show sumVecs n ([] : List Vec) = vzero n from rfl,
        vsub_vzero_right (vzero n) hzl]
    · rw [if_neg (by simpa [List.isEmpty_iff] using hDe)]
      show vsub (vzero n) (npSum de) = vsub (sumVecs n []) (sumVecs n de)
      rw [npSum_eq_sumVecs n de hDe hde]
      rfl
  · have hle1 : (if le.isEmpty then vzero n else vadd (vzero n) (npSum le)) = sumVecs n le := by
      rw [if_neg (by simpa [List.isEmpty_iff] using hLe), npSum_eq_sumVecs n le hLe hle,
        vzero_vadd_left _ (length_sumVecs n le hle)]
    by_cases hDe : de = []
    · subst hDe
      show (if le.isEmpty then vzero n else vadd (vzero n) (npSum le))
        = vsub (sumVecs n le) (sumVecs n [])
      rw [hle1, show sumVecs n ([] : List Vec) = vzero n from rfl,
        vsub_vzero_right _ (length_sumVecs n le hle)]
    · rw [if_neg (by simpa [List.isEmpty_iff] using hDe), hle1,
        npSum_eq_sumVecs n de hDe hde]

theorem computeWeightedEmbedding_eq_spec (r : Recommender) (L D : List Nat)
    (hids : r.ids.length = r.embs.length)
    (hdim : ∀ v ∈ r.embs, v.length = (r.embs.getD 0 []).length)
    (hL : ∀ id ∈ L, (idToIdx r.ids id).isSome)
    (hD : ∀ id ∈ D, (idToIdx r.ids id).isSome)
    (hne : L ++ D ≠ []) :
    computeWeightedEmbedding r L D = some (specWeightedEmbedding r L D) := by
  have hLe := collectEmbs_resolved r L hL
  have hDe := collectEmbs_resolved r D hD
  have hlenL : ∀ u ∈ L.map (vecOfId r), u.length = (r.embs.getD 0 []).length := by
    intro u hu
    obtain ⟨id, hid, rfl⟩ := List.mem_map.mp hu
    obtain ⟨i, hi⟩ := Option.isSome_iff_exists.mp (hL id hid)
    have hilt : i < r.embs.length := hids ▸ idToIdx_lt hi
    have hv : vecOfId r id = r.embs.getD i [] := by simp [vecOfId, hi]
    rw [hv]
    exact hdim _ (getD_mem _ _ _ hilt)
  have hlenD : ∀ u ∈ D.map (vecOfId r), u.length = (r.embs.getD 0 []).length := by
    intro u hu
    obtain ⟨id, hid, rfl⟩ := List.mem_map.mp hu
    obtain ⟨i, hi⟩ := Option.isSome_iff_exists.mp (hD id hid)
    have hilt : i < r.embs.length := hids ▸ idToIdx_lt hi
    have hv : vecOfId r id = r.embs.getD i [] := by simp [vecOfId, hi]
    rw [hv]
    exact hdim _ (getD_mem _ _ _ hilt)
  have htot : ¬ ((L.map (vecOfId r)).length + (D.map (vecOfId r)).length = 0) := by
    simp only [List.length_map]
    intro h0
    rcases Nat.add_eq_zero.mp h0 with ⟨h1, h2⟩
    exact hne (by rw [List.length_eq_zero.mp h1, List.length_eq_zero.mp h2]; rfl)
  unfold computeWeightedEmbedding
  simp only [hLe, hDe]
  rw [if_neg htot]
  rw [ws_chain _ _ _ hlenL hlenD]
  simp only [specWeightedEmbedding, List.length_map]

/-- Claim C1: for every preference set whose rated items all resolve to known
catalog vectors, the computed query vector equals the sum of the liked items'
vectors minus the sum of the disliked items' vectors, divided by the total
preference count, in both the genre-mode compute_query_vector and the
embedding-mode compute_weighted_embedding_from_preferences (the spec-side
right-hand sides are specQueryVector and specWeightedEmbedding). -/
theorem c1_preference_aggregation :
    (∀ (ncols : Nat) (st : UPrefs), st.preferences ≠ [] →
      (∀ p ∈ st.preferences,
        (dictLookup st.genreVectors p.1).map List.length = some ncols) →
      computeQueryVector ncols st = .ok (specQueryVector ncols st)) ∧
    (∀ (r : Recommender) (L D : List Nat), r.ids.length = r.embs.length →
      (∀ v ∈ r.embs, v.length = (r.embs.getD 0 []).length) →
      (∀ id ∈ L, (idToIdx r.ids id).isSome) →
      (∀ id ∈ D, (idToIdx r.ids id).isSome) →
      L ++ D ≠ [] →
      computeWeightedEmbedding r L D = some (specWeightedEmbedding r L D)) :=
  ⟨computeQueryVector_eq_spec, computeWeightedEmbedding_eq_spec⟩

/-- Witness for C1 at the spec's concrete fixture: two liked items with
vectors [1,0] and [0,1] and one disliked item with vector [1,1] produce the
query vector [0,0] in both modes. -/
theorem c1_witness :
    computeQueryVector 2 ⟨[(1, 1), (2, 1), (3, 0)], [(1, [1, 0]), (2, [0, 1]), (3, [1, 1])]⟩
      = .ok [0, 0] ∧
    computeWeightedEmbedding ⟨[1, 2, 3], [[1, 0], [0, 1], [1, 1]], 5⟩ [1, 2] [3]
      = some [0, 0] := by
  constructor
  · rw [c1_preference_aggregation.1 2
      ⟨[(1, 1), (2, 1), (3, 0)], [(1, [1, 0]), (2, [0, 1]), (3, [1, 1])]⟩
      (by decide) (by decide)]
    have g1 : dictLookupD [(1, [1, 0]), (2, [0, 1]), (3, [1, 1])] 1 = [1, 0] := by decide
    have g2 : dictLookupD [(1, [1, 0]), (2, [0, 1]), (3, [1, 1])] 2 = [0, 1] := by decide
    have g3 : dictLookupD [(1, [1, 0]), (2, [0, 1]), (3, [1, 1])] 3 = [1, 1] := by decide
    norm_num [specQueryVector, likedVecs, dislikedVecs, g1, g2, g3, sumVecs, vadd, vsub,
      vzero, vdivN, List.filter_cons, List.replicate_succ]
  · rw [c1_preference_aggregation.2 ⟨[1, 2, 3], [[1, 0], [0, 1], [1, 1]], 5⟩ [1, 2] [3]
      (by decide) (by decide) (by decide) (by decide) (by decide)]
    have h1 : idToIdx [1, 2, 3] 1 = some 0 := by decide
    have h2 : idToIdx [1, 2, 3] 2 = some 1 := by decide
    have h3 : idToIdx [1, 2, 3] 3 = some 2 := by decide
    norm_num [specWeightedEmbedding, vecOfId, h1, h2, h3, sumVecs, vadd, vsub, vzero,
      vdivN, List.getD, List.replicate_succ]

/-- Claim C6: in genre mode, compute_query_vector on an empty preference set
raises the empty-preference error rather than returning a default vector, and
on every non-empty preference set (with its vector cache consistent, as every
successful add_preference leaves it) it returns a vector. -/
theorem c6_empty_preference_error :
    (∀ (ncols : Nat) (gv : List (Nat × Vec)),
      computeQueryVector ncols ⟨[], gv⟩ = .error .emptyPreferences) ∧
    (∀ (ncols : Nat) (st : UPrefs), st.preferences ≠ [] →
      (∀ p ∈ st.preferences, (dictLookup st.genreVectors p.1).isSome) →
      ∃ v, computeQueryVector ncols st = .ok v) := by
  constructor
  · intro ncols gv
    rfl
  · intro ncols st hne h
    obtain ⟨v, hv⟩ := accumPrefs_isOk st.genreVectors st.preferences (vzero ncols) h
    refine ⟨vdivN v st.preferences.length, ?_⟩
    unfold computeQueryVector
    rw [if_neg (by simpa [List.isEmpty_iff] using hne), hv]
    show (if 0 < st.preferences.length then Except.ok (vdivN v st.preferences.length)
      else Except.ok v) = _
    rw [if_pos (List.length_pos.mpr hne)]

/-- Witness for C6: the empty state errors, a one-preference state returns a
vector. -/
theorem c6_witness :
    computeQueryVector 2 ⟨[], [(7, [1, 0])]⟩ = .error .emptyPreferences ∧
    ∃ v, computeQueryVector 2 ⟨[(7, 1)], [(7, [1, 0])]⟩ = .ok v :=
  ⟨c6_empty_preference_error.1 2 [(7, [1, 0])],
    c6_empty_preference_error.2 2 ⟨[(7, 1)], [(7, [1, 0])]⟩ (by decide) (by decide)⟩

/-- Claim C9: add_preference with an imdb id absent from the catalog raises,
but the rating is already stored in the preferences dict while no vector is
cached in genre_vectors — the key sets of the two dicts diverge — and a
subsequent compute_query_vector on that state fails with the missing-key
error instead of returning a vector. -/
theorem c9_add_preference_divergence (cat : Catalog) (st : UPrefs) (imdbId : Nat)
    (rating : ℚ) (ncols : Nat)
    (habs : ∀ p ∈ cat, p.1 ≠ imdbId)
    (hnp : imdbId ∉ st.preferences.map Prod.fst)
    (hng : dictLookup st.genreVectors imdbId = none)
    (hok : ∀ p ∈ st.preferences, (dictLookup st.genreVectors p.1).isSome) :
    (addPreference cat st imdbId rating).2 = .error .unknownItem ∧
    dictLookup (addPreference cat st imdbId rating).1.preferences imdbId = some rating ∧
    (addPreference cat st imdbId rating).1.genreVectors = st.genreVectors ∧
    imdbId ∈ (addPreference cat st imdbId rating).1.preferences.map Prod.fst ∧
    imdbId ∉ (addPreference cat st imdbId rating).1.genreVectors.map Prod.fst ∧
    computeQueryVector ncols (addPreference cat st imdbId rating).1 = .error .keyError := by
  have hgv := getGenreVector_absent cat imdbId habs
  have hst : addPreference cat st imdbId rating
      = (⟨dictUpsert st.preferences imdbId rating, st.genreVectors⟩, .error .unknownItem) := by
    unfold addPreference
    rw [hgv]
  have hup : dictUpsert st.preferences imdbId rating = st.preferences ++ [(imdbId, rating)] :=
    dictUpsert_not_mem _ _ _ hnp
  rw [hst]
  refine ⟨rfl, ?_, rfl, ?_, ?_, ?_⟩
  · show dictLookup (dictUpsert st.preferences imdbId rating) imdbId = some rating
    rw [hup]
    exact dictLookup_append_self _ _ _ hnp
  · show imdbId ∈ (dictUpsert st.preferences imdbId rating).map Prod.fst
    rw [hup]
    simp
  · exact (dictLookup_eq_none_iff _ _).mp hng
  · show computeQueryVector ncols ⟨dictUpsert st.preferences imdbId rating, st.genreVectors⟩
      = .error .keyError
    unfold computeQueryVector
    simp only [hup]
    rw [if_neg (by simp [List.isEmpty_iff])]
    rw [accumPrefs_append_missing st.genreVectors st.preferences (vzero ncols) imdbId rating
      hok hng]

/-- Witness for C9 on a one-movie catalog and an unknown id. -/
theorem c9_witness :
    (addPreference [(1, [(1:ℚ), 0])] ⟨[], []⟩ 2 1).2 = .error .unknownItem ∧
    dictLookup (addPreference [(1, [(1:ℚ), 0])] ⟨[], []⟩ 2 1).1.preferences 2 = some 1 ∧
    (addPreference [(1, [(1:ℚ), 0])] ⟨[], []⟩ 2 1).1.genreVectors = [] ∧
    2 ∈ (addPreference [(1, [(1:ℚ), 0])] ⟨[], []⟩ 2 1).1.preferences.map Prod.fst ∧
    2 ∉ (addPreference [(1, [(1:ℚ), 0])] ⟨[], []⟩ 2 1).1.genreVectors.map Prod.fst ∧
    computeQueryVector 2 (addPreference [(1, [(1:ℚ), 0])] ⟨[], []⟩ 2 1).1 = .error .keyError :=
  c9_add_preference_divergence [(1, [(1:ℚ), 0])] ⟨[], []⟩ 2 1 2
    (by decide) (by decide) (by decide) (by decide)

/-- Claim C10: the embedding-mode request flow classifies a stored rating as
a like exactly when it is at least 0.5 (likedIdsOf), while the genre-mode
compute_query_vector adds the item's vector exactly when the rating is
strictly positive; hence every rating strictly between 0 and 0.5 is treated
as a like by genre mode (the vector is added) and as a dislike by embedding
mode. -/
theorem c10_like_threshold_mismatch (r : ℚ) (key ncols : Nat) (v : Vec)
    (hr0 : 0 < r) (hrh : r < 1/2) (hv : v.length = ncols) :
    computeQueryVector ncols ⟨[(key, r)], [(key, v)]⟩ = .ok v ∧
    likedIdsOf [(key, r)] = [] ∧
    dislikedIdsOf [(key, r)] = [key] ∧
    (∀ s : ℚ, likedIdsOf [(key, s)] = [key] ↔ 1/2 ≤ s) := by
  refine ⟨?_, ?_, ?_, ?_⟩
  · have hlk : dictLookup [(key, v)] key = some v := by simp [dictLookup]
    have hacc : accumPrefs [(key, v)] (vzero ncols) [(key, r)] = .ok v := by
      simp only [accumPrefs, hlk, if_pos hr0]
      exact congrArg Except.ok (vzero_vadd_left v hv)
    unfold computeQueryVector
    rw [if_neg (by simp), hacc]
    show (if 0 < ([(key, r)] : List (Nat × ℚ)).length then
        Except.ok (vdivN v ([(key, r)] : List (Nat × ℚ)).length) else Except.ok v)
      = Except.ok v
    rw [if_pos (by simp)]
    simp [vdivN_one]
  · simp only [likedIdsOf]
    rw [List.filter_cons_of_neg (by simpa using not_le.mpr hrh)]
    rfl
  · simp only [dislikedIdsOf]
    rw [List.filter_cons_of_pos (by simpa using hrh)]
    rfl
  · intro s
    by_cases hs : (1:ℚ)/2 ≤ s
    · constructor
      · intro _
        exact hs
      · intro _
        simp only [likedIdsOf]
        rw [List.filter_cons_of_pos (by simpa using hs)]
        rfl
    · constructor
      · intro hcontra
        exfalso
        simp only [likedIdsOf] at hcontra
        rw [List.filter_cons_of_neg (by simpa using hs)] at hcontra
        simp at hcontra
      · intro hcontra
        exact absurd hcontra hs

/-- Witness for C10 at rating 1/4: genre mode adds the vector, embedding mode
classifies it as a dislike; and 3/4 is classified as a like. -/
theorem c10_witness :
    computeQueryVector 2 ⟨[(5, 1/4)], [(5, [1, 0])]⟩ = .ok [1, 0] ∧
    likedIdsOf [(5, 1/4)] = [] ∧
    dislikedIdsOf [(5, 1/4)] = [5] ∧
    (likedIdsOf [(5, 3/4)] = [5] ↔ (1 : ℚ)/2 ≤ 3/4) := by
  have h := c10_like_threshold_mismatch (1/4) 5 2 [1, 0] (by norm_num) (by norm_num) (by decide)
  exact ⟨h.1, h.2.1, h.2.2.1, h.2.2.2 (3/4)⟩

/-- Claim C7: compute_weighted_embedding_from_preferences returns None — not
an error — exactly when zero of the supplied preference identifiers resolve to
known items; unknown identifiers are skipped, and whenever at least one
identifier resolves the result is a vector (an Option that is not none). -/
theorem c7_none_iff_nothing_resolves (r : Recommender) (liked disliked : List Nat) :
    computeWeightedEmbedding r liked disliked = none ↔
      ∀ id ∈ liked ++ disliked, idToIdx r.ids id = none := by
  have hres : ∀ l : List Nat, (collectEmbs r l = [] ↔ ∀ id ∈ l, idToIdx r.ids id = none) := by
    intro l
    simp [collectEmbs, List.filterMap_eq_nil_iff, Option.map_eq_none']
  simp only [computeWeightedEmbedding]
  by_cases h : (collectEmbs r liked).length + (collectEmbs r disliked).length = 0
  · rw [if_pos h]
    rcases Nat.add_eq_zero.mp h with ⟨h1, h2⟩
    rw [List.length_eq_zero] at h1 h2
    constructor
    · intro _ id hid
      rcases List.mem_append.mp hid with hm | hm
      · exact (hres liked).mp h1 id hm
      · exact (hres disliked).mp h2 id hm
    · intro _
      rfl
  · rw [if_neg h]
    constructor
    · intro hc
      exact Option.noConfusion hc
    · intro hall
      exfalso
      apply h
      have h1 : collectEmbs r liked = [] :=
        (hres liked).mpr (fun id hid => hall id (List.mem_append.mpr (Or.inl hid)))
      have h2 : collectEmbs r disliked = [] :=
        (hres disliked).mpr (fun id hid => hall id (List.mem_append.mpr (Or.inr hid)))
      rw [h1, h2]
      rfl

/-- Claim C5 counterexample: the genre-mode aggregation is carried out in
64-bit floats — _get_genre_vector converts with astype(float) (the Python
double) and compute_query_vector accumulates into a default np.zeros array —
so the claim that all preference-aggregation arithmetic is performed in
32-bit floating point is false on the genre path. -/
theorem c5_counterexample : genreQueryDType = DType.f64 ∧ genreQueryDType ≠ DType.f32 :=
  ⟨rfl, by decide⟩

/-- Claim C5 amended: the embedding-mode path performs its aggregation
arithmetic in 32-bit floats (the stored matrix is astype(np.float32), the
accumulator is zeros_like a row, division by a Python int preserves the
dtype, and the result is cast to float32), while the genre-mode path performs
vector lookup, signed accumulation and division in 64-bit floats. -/
theorem c5_dtype_amended : weightedEmbeddingDType = DType.f32 ∧ genreQueryDType = DType.f64 :=
  ⟨rfl, rfl⟩

/-- Claim C8 amended: a request before the cached result is computed gets the
distinct not-ready condition (a dedicated 503, not an empty list); after the
cache is built, a request with a positive limit against the non-empty cache
returns the cached list truncated to the limit, which is non-empty — and the
handler is a pure function of the module state, so repeated calls on an
unchanged state return the identical result.  A request with limit = 0 is
instead answered with the not-found error (see the counterexample). -/
theorem c8_initial_cache (st : AppState) (cached : List Nat) (limit : Nat)
    (hready : st.recommenderReady = true) :
    (st.cachedInitial = none → getInitialRecommendations st limit = .error .notReady) ∧
    (st.cachedInitial = some cached → cached ≠ [] → 0 < limit →
      getInitialRecommendations st limit = .ok (cached.take limit) ∧ cached.take limit ≠ []) := by
  constructor
  · intro hnone
    unfold getInitialRecommendations
    rw [if_neg (by simp [hready]), hnone]
  · intro hsome hne hpos
    have htake : cached.take limit ≠ [] := by
      rw [Ne, List.take_eq_nil_iff]
      push_neg
      exact ⟨Nat.pos_iff_ne_zero.mp hpos, hne⟩
    refine ⟨?_, htake⟩
    unfold getInitialRecommendations
    rw [if_neg (by simp [hready]), hsome]
    show (if (cached.take limit).isEmpty then Except.error ApiError.noneFound
      else Except.ok (cached.take limit)) = Except.ok (cached.take limit)
    rw [if_neg (by simpa [List.isEmpty_iff] using htake)]

/-- Witness for C8: a ready recommender with no cache yet returns the
not-ready condition; once the cache holds [5, 6], limit 1 returns [5]. -/
theorem c8_witness :
    getInitialRecommendations ⟨true, none⟩ 20 = .error .notReady ∧
    getInitialRecommendations ⟨true, some [5, 6]⟩ 1 = .ok ([5, 6].take 1) ∧
    ([5, 6].take 1 : List Nat) ≠ [] := by
  refine ⟨(c8_initial_cache ⟨true, none⟩ [] 20 rfl).1 rfl, ?_, ?_⟩
  · exact ((c8_initial_cache ⟨true, some [5, 6]⟩ [5, 6] 1 rfl).2 rfl (by decide) (by decide)).1
  · exact ((c8_initial_cache ⟨true, some [5, 6]⟩ [5, 6] 1 rfl).2 rfl (by decide) (by decide)).2

/-- Claim C8 counterexample: after the cache is built (and non-empty), the
request with limit 0 is answered with a 404 not-found error, refuting the
claim that after construction every request returns a non-empty result
truncated to the requested limit. -/
theorem c8_counterexample :
    getInitialRecommendations ⟨true, some [5, 6]⟩ 0 = .error .noneFound := by decide

theorem getD_eq_elem {α : Type} :
    ∀ (l : List α) (i : Nat) (d : α) (h : i < l.length), l.getD i d = l[i]
  | _ :: _, 0, _, _ => rfl
  | _ :: l, i + 1, d, h => by
    rw [List.getD_cons_succ, List.getElem_cons_succ]
    exact getD_eq_elem l i d (by simpa using h)

theorem length_searchIndices (embs : List Vec) (q : Vec) (k : Nat) :
    (searchIndices embs q k).length = k := by
  simp only [searchIndices, List.length_append, List.length_map, List.length_take,
    List.length_replicate, rankRows, List.length_insertionSort, List.length_range]
  omega

theorem ilocId_ofNat {ids : List Nat} {i : Nat} (h : i < ids.length) :
    ilocId ids (i : Int) = some (ids.getD i 0) := by
  have h1 : ¬ ((i : Int) < 0) := by omega
  have h2 : (0 : Int) ≤ (i : Int) := by omega
  simp only [ilocId, if_neg h1, if_pos h2, Int.toNat_natCast]
  rw [List.getElem?_eq_getElem h, getD_eq_elem ids i 0 h]

theorem ilocId_neg_one {ids : List Nat} (h : ids ≠ []) :
    ilocId ids (-1) = some (ids.getD (ids.length - 1) 0) := by
  have hlen : 0 < ids.length := List.length_pos.mpr h
  have h1 : (-1 : Int) < 0 := by omega
  have h2 : (0 : Int) ≤ (ids.length : Int) + (-1) := by omega
  have h3 : ((ids.length : Int) + (-1)).toNat = ids.length - 1 := by omega
  have h4 : ids.length - 1 < ids.length := by omega
  simp only [ilocId, if_pos h1, if_pos h2, h3]
  rw [List.getElem?_eq_getElem h4, getD_eq_elem ids (ids.length - 1) 0 h4]

theorem lookupIds_length (ids : List Nat) :
    ∀ idxs : List Int, (∀ i ∈ idxs, (ilocId ids i).isSome) →
    ∃ l, lookupIds ids idxs = some l ∧ l.length = idxs.length
  | [], _ => ⟨[], rfl, rfl⟩
  | i :: idxs, h => by
    obtain ⟨m, hm⟩ := Option.isSome_iff_exists.mp (h i (List.mem_cons_self _ _))
    obtain ⟨l, hl, hlen⟩ :=
      lookupIds_length ids idxs (fun j hj => h j (List.mem_cons_of_mem _ hj))
    refine ⟨m :: l, ?_, by simp [hlen]⟩
    simp only [lookupIds, hm, hl]

theorem rankRows_mem {embs : List Vec} {q : Vec} {p : Nat × ℚ}
    (h : p ∈ rankRows embs q) : p.1 < embs.length := by
  unfold rankRows at h
  rw [List.mem_insertionSort] at h
  obtain ⟨j, hj, hje⟩ := List.mem_map.mp h
  rw [← hje]
  exact List.mem_range.mp hj

theorem searchIndices_mem {embs : List Vec} {q : Vec} {k : Nat} {i : Int}
    (h : i ∈ searchIndices embs q k) :
    (∃ m : Nat, i = (m : Int) ∧ m < embs.length) ∨ i = -1 := by
  rcases List.mem_append.mp h with hm | hm
  · obtain ⟨p, hp, rfl⟩ := List.mem_map.mp hm
    exact Or.inl ⟨p.1, rfl, rankRows_mem (List.mem_of_mem_take hp)⟩
  · exact Or.inr (List.eq_of_mem_replicate hm)

/-- Claim C2 amended: the nearest-neighbor search does not error when k
exceeds the store's row count, but k is not clamped — for every query
against a non-empty aligned store the result has exactly k entries, because
FAISS pads missing results with the sentinel row -1, which pandas negative
indexing resolves to the last row (so for k above the row count the output
repeats the last row's identifier and exceeds row_count in length, as the
counterexample shows). -/
theorem c2_search_k_results (r : Recommender) (q : Vec) (k : Nat)
    (hids : r.ids.length = r.embs.length) (hne : r.ids ≠ []) :
    ∃ l, getSimilarMovies r q k = some l ∧ l.length = k := by
  have hall : ∀ i ∈ searchIndices r.embs q k, (ilocId r.ids i).isSome := by
    intro i hi
    rcases searchIndices_mem hi with ⟨m, rfl, hm⟩ | rfl
    · rw [ilocId_ofNat (show m < r.ids.length by omega)]
      rfl
    · rw [ilocId_neg_one hne]
      rfl
  obtain ⟨l, hl, hlen⟩ := lookupIds_length r.ids (searchIndices r.embs q k) hall
  exact ⟨l, hl, by rw [hlen, length_searchIndices]⟩

/-- Witness for C2 on a one-row store with k = 5. -/
theorem c2_witness :
    ∃ l, getSimilarMovies ⟨[7], [[1, 0]], 3⟩ [0, 0] 5 = some l ∧ l.length = 5 :=
  c2_search_k_results ⟨[7], [[1, 0]], 3⟩ [0, 0] 5 (by decide) (by decide)

/-- Claim C2 counterexample: on a one-row store a search with k = 2 returns
two results — more than the row count — so k is not clamped to
min(k, row_count) and the result is not bounded by the row count. -/
theorem c2_counterexample :
    getSimilarMovies ⟨[7], [[1, 0]], 3⟩ [0, 0] 2 = some [7, 7] ∧
    ¬ ([7, 7] : List Nat).length ≤ ([7] : List Nat).length :=
  ⟨by decide, by decide⟩

theorem rankRows_fst_nodup (embs : List Vec) (q : Vec) :
    ((rankRows embs q).map Prod.fst).Nodup := by
  have hperm : List.Perm (rankRows embs q) ((List.range embs.length).map
      (fun i => (i, sqDist q (embs.getD i [])))) := List.perm_insertionSort distLE _
  have hmap := hperm.map Prod.fst
  apply hmap.nodup_iff.mpr
  have heq : ((List.range embs.length).map
      (fun i => (i, sqDist q (embs.getD i [])))).map Prod.fst = List.range embs.length := by
    rw [List.map_map]
    exact List.map_id _
  rw [heq]
  exact List.nodup_range _

theorem rankRows_sorted (embs : List Vec) (q : Vec) :
    (rankRows embs q).Pairwise distLE :=
  List.sorted_insertionSort distLE _

theorem nodup_map_getD (ids : List Nat) (hnd : ids.Nodup) (l : List Nat)
    (hl : ∀ i ∈ l, i < ids.length) (hlnd : l.Nodup) :
    (l.map (fun i => ids.getD i 0)).Nodup := by
  refine List.Nodup.map_on ?_ hlnd
  intro x hx y hy hxy
  have hx2 := hl x hx
  have hy2 := hl y hy
  rw [getD_eq_elem ids x 0 hx2, getD_eq_elem ids y 0 hy2] at hxy
  exact (hnd.getElem_inj_iff).mp hxy

theorem lookupIds_map_ofNat (ids : List Nat) :
    ∀ l : List (Nat × ℚ), (∀ p ∈ l, p.1 < ids.length) →
    lookupIds ids (l.map (fun p => (p.1 : Int))) = some (l.map (fun p => ids.getD p.1 0))
  | [], _ => rfl
  | p :: l, h => by
    have h1 := ilocId_ofNat (h p (List.mem_cons_self _ _))
    simp only [List.map_cons, lookupIds, h1,
      lookupIds_map_ofNat ids l (fun u hu => h u (List.mem_cons_of_mem _ hu))]

/-- Claim C4 amended: when the search returns only real rows (k at most the
row count) and the catalog's identifiers are pairwise distinct, the
aggregation step of get_similar_movies returns exactly the search's
ascending-distance row list mapped to identifiers — the order is preserved
directly with no re-ranking — and the output has no duplicates; with FAISS
-1 padding (k above the row count) the repeated last row yields duplicates
(see the counterexample). -/
theorem c4_aggregation_order_nodup (r : Recommender) (q : Vec) (k : Nat)
    (hids : r.ids.length = r.embs.length) (hk : k ≤ r.embs.length) (hnd : r.ids.Nodup) :
    getSimilarMovies r q k
      = some (((rankRows r.embs q).take k).map (fun p => r.ids.getD p.1 0)) ∧
    (((rankRows r.embs q).take k).map (fun p => r.ids.getD p.1 0)).Nodup ∧
    ((rankRows r.embs q).take k).Pairwise (fun a b => a.2 ≤ b.2) := by
  have hmem : ∀ p ∈ (rankRows r.embs q).take k, p.1 < r.ids.length := by
    intro p hp
    have := rankRows_mem (List.mem_of_mem_take hp)
    omega
  refine ⟨?_, ?_, ?_⟩
  · unfold getSimilarMovies
    have hpad : k - r.embs.length = 0 := Nat.sub_eq_zero_of_le hk
    have hse : searchIndices r.embs q k
        = ((rankRows r.embs q).take k).map (fun p => (p.1 : Int)) := by
      simp [searchIndices, hpad]
    rw [hse]
    exact lookupIds_map_ofNat r.ids _ hmem
  · have hfst : (((rankRows r.embs q).take k).map Prod.fst).Nodup := by
      rw [List.map_take]
      exact (rankRows_fst_nodup r.embs q).sublist (List.take_sublist _ _)
    have hcomp : ((rankRows r.embs q).take k).map (fun p => r.ids.getD p.1 0)
        = (((rankRows r.embs q).take k).map Prod.fst).map (fun i => r.ids.getD i 0) := by
      rw [List.map_map]
      rfl
    rw [hcomp]
    refine nodup_map_getD r.ids hnd _ ?_ hfst
    intro i hi
    obtain ⟨p, hp, rfl⟩ := List.mem_map.mp hi
    exact hmem p hp
  · have hs : ((rankRows r.embs q).take k).Pairwise distLE :=
      List.Pairwise.sublist (List.take_sublist _ _) (rankRows_sorted r.embs q)
    exact hs.imp (fun hab => hab.elim le_of_lt (fun h2 => le_of_eq h2.1))

/-- Witness for C4 on a two-row store with distinct identifiers and k = 1. -/
theorem c4_witness :
    getSimilarMovies ⟨[3, 4], [[0, 0], [1, 1]], 2⟩ [0, 0] 1
      = some (((rankRows [[0, 0], [1, 1]] [0, 0]).take 1).map
        (fun p => List.getD [3, 4] p.1 0)) ∧
    ((((rankRows [[0, 0], [1, 1]] [0, 0]).take 1).map
      (fun p => List.getD [3, 4] p.1 0)).Nodup) ∧
    ((rankRows [[0, 0], [1, 1]] [0, 0]).take 1).Pairwise (fun a b => a.2 ≤ b.2) :=
  c4_aggregation_order_nodup ⟨[3, 4], [[0, 0], [1, 1]], 2⟩ [0, 0] 1
    (by decide) (by decide) (by decide)

/-- Claim C4 counterexample: with one row and k = 2, the FAISS padding index
-1 resolves to the same (last) row, so the aggregation output [9, 9] contains
a duplicate, refuting the no-duplicates contract for every neighbor-search
result list. -/
theorem c4_counterexample :
    getSimilarMovies ⟨[9], [[1, 0]], 3⟩ [0, 0] 2 = some [9, 9] ∧
    ¬ ([9, 9] : List Nat).Nodup :=
  ⟨by decide, by decide⟩

/-- Claim C3 amended: an ok result of the similar-to endpoint has length at
most limit and never contains the source movie, and an ok result of the
preference endpoint has length at most limit and never contains an
already-rated movie; when fewer than limit but at least one candidate
survives the exclusion filter the shorter list is returned, but when zero
survive the endpoints answer with a 404 error instead of returning the empty
list (see the counterexample). -/
theorem c3_exclusion_and_limit :
    (∀ (r : Recommender) (imdbId limit : Nat) (res : List Nat),
      getSimilarToMovie r imdbId limit = .ok res →
      res.length ≤ limit ∧ imdbId ∉ res) ∧
    (∀ (r : Recommender) (stored reqPrefs : List (Nat × ℚ)) (limit : Nat) (res : List Nat),
      getRecommendationsFromUserPreferences r stored reqPrefs limit = .ok res →
      res.length ≤ limit ∧ ∀ m ∈ res, m ∉ (mergeRatings stored reqPrefs).map Prod.fst) := by
  constructor
  · intro r imdbId limit res h
    simp only [getSimilarToMovie] at h
    split at h
    · exact Except.noConfusion h
    · split at h
      · exact Except.noConfusion h
      · split at h
        · exact Except.noConfusion h
        · injection h with h2
          subst h2
          constructor
          · exact List.length_take_le _ _
          · intro hmem
            have h3 := (List.mem_filter.mp (List.mem_of_mem_take hmem)).2
            simp at h3
  · intro r stored reqPrefs limit res h
    simp only [getRecommendationsFromUserPreferences] at h
    split at h
    · exact Except.noConfusion h
    · split at h
      · exact Except.noConfusion h
      · split at h
        · exact Except.noConfusion h
        · split at h
          · exact Except.noConfusion h
          · injection h with h2
            subst h2
            constructor
            · exact List.length_take_le _ _
            · intro m hmem
              have h3 := (List.mem_filter.mp (List.mem_of_mem_take hmem)).2
              exact of_decide_eq_true h3

/-- Witness for C3: on a two-movie store, asking for movies similar to movie
7 returns [8] (movie 7 excluded, length within the limit), and asking for
preference-based recommendations after liking movie 7 returns [8] as well,
excluding the rated movie. -/
theorem c3_witness :
    ([8] : List Nat).length ≤ 10 ∧ 7 ∉ ([8] : List Nat) ∧
    8 ∉ (mergeRatings [] [(7, 1)]).map Prod.fst := by
  have hidx : idToIdx [7, 8] 7 = some 0 := by decide
  have hd0 : sqDist [0, 0] [0, 0] = 0 := by norm_num [sqDist]
  have hd1 : sqDist [0, 0] [1, 1] = 2 := by norm_num [sqDist]
  have hsi : searchIndices [[0, 0], [1, 1]] [0, 0] 2 = [(0 : Int), (1 : Int)] := by
    simp [searchIndices, rankRows, List.range_succ, List.insertionSort,
      List.orderedInsert, hd0, hd1, distLE]
  have hlk : lookupIds [7, 8] [(0 : Int), (1 : Int)] = some [7, 8] := by decide
  have hsm : getSimilarMovies ⟨[7, 8], [[0, 0], [1, 1]], 2⟩ [0, 0] 2 = some [7, 8] := by
    show lookupIds [7, 8] (searchIndices [[0, 0], [1, 1]] [0, 0] 2) = some [7, 8]
    rw [hsi]
    exact hlk
  have hrd : recommendWithDetails ⟨[7, 8], [[0, 0], [1, 1]], 2⟩ [0, 0] 11 = some [7, 8] := by
    show (getSimilarMovies ⟨[7, 8], [[0, 0], [1, 1]], 2⟩ [0, 0] 2).map (fun l => l.take 11)
      = some [7, 8]
    rw [hsm]
    rfl
  have hok : getSimilarToMovie ⟨[7, 8], [[0, 0], [1, 1]], 2⟩ 7 10 = .ok [8] := by
    simp only [getSimilarToMovie, hidx, List.getD_cons_zero, hrd]
    decide
  have hcw : computeWeightedEmbedding ⟨[7, 8], [[0, 0], [1, 1]], 2⟩ [7] [] = some [0, 0] := by
    have hc : collectEmbs ⟨[7, 8], [[0, 0], [1, 1]], 2⟩ [7] = [[0, 0]] := by
      simp [collectEmbs, hidx]
    have hc0 : collectEmbs ⟨[7, 8], [[0, 0], [1, 1]], 2⟩ [] = [] := rfl
    norm_num [computeWeightedEmbedding, hc, hc0, npSum, vadd, vzero, vdivN,
      List.replicate_succ]
  have hmerge : mergeRatings [] [(7, 1)] = [(7, 1)] := by norm_num [mergeRatings, dictUpsert]
  have hlike : likedIdsOf [(7, 1)] = [7] := by norm_num [likedIdsOf, List.filter_cons]
  have hdis : dislikedIdsOf [(7, 1)] = [] := by norm_num [dislikedIdsOf, List.filter_cons]
  have hpref : getRecommendationsFromUserPreferences ⟨[7, 8], [[0, 0], [1, 1]], 2⟩
      [] [(7, 1)] 10 = .ok [8] := by
    simp only [getRecommendationsFromUserPreferences, hmerge, hlike, hdis, hcw,
      List.length_cons, List.length_nil, hrd]
    decide
  have h1 := c3_exclusion_and_limit.1 ⟨[7, 8], [[0, 0], [1, 1]], 2⟩ 7 10 [8] hok
  have h2 := c3_exclusion_and_limit.2 ⟨[7, 8], [[0, 0], [1, 1]], 2⟩ [] [(7, 1)] 10 [8] hpref
  exact ⟨h1.1, h1.2, h2.2 8 (by decide)⟩

/-- Claim C3 counterexample: on a one-movie store, asking for movies similar
to that movie leaves zero candidates after the exclusion filter, and the
endpoint raises a 404 error instead of returning the shorter (empty) list,
refuting the never-an-error part of the claim. -/
theorem c3_counterexample :
    getSimilarToMovie ⟨[7], [[1, 0]], 3⟩ 7 10 = .error .noneFound := by decide

end MovieRec
